import Mathlib

/-!
Verification development for the TuneBot music bot (src/app/app.py).

The per-room queue/playback state machine is embedded shallowly:

* `MusicQueue` fields (`queue`, `current`, `loop`, `volume`, `processing`,
  lines 133-140) plus the player-level observables (`is_playing`, the
  live source volume) and a freshness counter for track handles become the
  fields of `RoomState`.  Track handles are modelled as natural-number ids;
  every call to `YTDLSource.create_source` produces a brand new object in
  the source, which the counter `nextId` captures.
* The coroutines become state-transition functions.  The `after=` completion
  callback of `voice_client.play` (lines 287-292) is modelled by
  `onCompletion`; following the serialized-event reading of the source's
  cooperative scheduler, a forced stop (`voice_client.stop()`) delivers that
  completion before the issuing command's own continuation runs.
* Rooms are independent (one `MusicQueue` per guild id, never shared), so a
  single `RoomState` models an arbitrary room.
-/

namespace TuneBot

/-- Zero-pad a natural number to two digits, as Python's `f"{n:02d}"` does
for `n < 100`. -/
def pad2 (n : Nat) : String :=
  if n < 10 then "0" ++ Nat.repr n else Nat.repr n

/-- `format_duration` (app.py lines 8-17): `None` gives `"Unknown"`, otherwise
`divmod` by 3600 and 60 and print `H:MM:SS` when there is a nonzero hour part,
else `M:SS`. -/
def format_duration : Option Nat → String
  | none => "Unknown"
  | some duration =>
      let hours := duration / 3600
      let remainder := duration % 3600
      let minutes := remainder / 60
      let seconds := remainder % 60
      if hours > 0 then
        Nat.repr hours ++ ":" ++ pad2 minutes ++ ":" ++ pad2 seconds
      else
        Nat.repr minutes ++ ":" ++ pad2 seconds

/-- The mutable state of one room: the `MusicQueue` fields (lines 133-140)
together with the player-level observables the commands branch on.
Track handles are numeric ids; `nextId` is the next fresh id. -/
structure RoomState where
  /-- `MusicQueue.queue`: pending track handles, head = front of the deque. -/
  queue : List Nat
  /-- `MusicQueue.current`: the handle last handed to `play_song`, if any. -/
  current : Option Nat
  /-- `MusicQueue.loop`. -/
  loop : Bool
  /-- `MusicQueue.volume`, in percent (the source stores `1.0` = 100%). -/
  volume : Nat
  /-- `MusicQueue.processing`: the accepting-work flag. -/
  processing : Bool
  /-- `voice_client.is_playing()`. -/
  playing : Bool
  /-- Volume (percent) of the source currently attached to the player. -/
  liveVolume : Nat
  /-- Freshness counter: ids already handed out are `< nextId`. -/
  nextId : Nat
  /-- Number of playback-error reports surfaced to the channel. -/
  errors : Nat
  deriving DecidableEq, Repr

/-- The state of a freshly created `MusicQueue` (lines 135-140) with the
player idle and no handles issued yet. -/
def initState : RoomState :=
  { queue := [], current := none, loop := false, volume := 100,
    processing := true, playing := false, liveVolume := 100,
    nextId := 0, errors := 0 }

/-- `play_song` (lines 282-302): set `queue.current`, start the player on the
new source (whose `PCMVolumeTransformer` volume defaults to `1.0` = 100%). -/
def play_song (s : RoomState) (h : Nat) : RoomState :=
  { s with current := some h, playing := true, liveVolume := 100 }

/-- `play_next` (lines 304-313): if `queue.loop and queue.current`, push the
current handle back on the *front* of the deque (`appendleft`); then, if the
deque is non-empty, pop its front and `play_song` it.  Note that neither
branch ever resets `queue.current` to `None`. -/
def play_next (s : RoomState) : RoomState :=
  let s1 :=
    match s.current with
    | some c => if s.loop then { s with queue := c :: s.queue } else s
    | none => s
  match s1.queue with
  | [] => s1
  | next :: rest => play_song { s1 with queue := rest } next

/-- The `after=` completion callback installed by `play_song`
(lines 287-292): when the stream ends the player is no longer playing; an
error is only reported (`ctx.send(f"Error: {e}")`), while a normal end
schedules `play_next`. -/
def onCompletion (s : RoomState) (err : Bool) : RoomState :=
  let s1 := { s with playing := false }
  if err then { s1 with errors := s1.errors + 1 } else play_next s1

/-- The single-track path of the `play` command (lines 243-277): reset
`queue.processing = True`, resolve a fresh handle via
`YTDLSource.create_source`, then append it if the player `is_playing`,
else start it with `play_song`.  (The voice-presence precondition check and
the connect/move calls do not touch the queue state.) -/
def enqueueTrack (s : RoomState) : RoomState :=
  if s.playing then
    { s with processing := true, nextId := s.nextId + 1,
             queue := s.queue ++ [s.nextId] }
  else
    play_song { s with processing := true, nextId := s.nextId + 1 } s.nextId

/-- The `skip` command (lines 395-411): no-op unless the player is playing;
otherwise `voice_client.stop()` forces the completion callback (which runs
`play_next`), and skip's own continuation then either calls `play_next`
again (deque non-empty) or sets `queue.current = None`.  The forced
completion and the continuation race in the source; they are serialized
here with the completion first (the conclusions used below hold in either
order, because `play_next` itself performs the loop re-insertion). -/
def skip (s : RoomState) : RoomState :=
  if s.playing then
    if (onCompletion s false).queue.isEmpty then
      { onCompletion s false with current := none }
    else
      play_next (onCompletion s false)
  else s

/-- The `stop` command (lines 375-383): set `processing = False`, clear the
deque, and if a voice client is streaming, `voice_client.stop()` forces the
completion callback. -/
def stop (s : RoomState) : RoomState :=
  if s.playing then
    onCompletion { s with processing := false, queue := [] } false
  else
    { s with processing := false, queue := [] }

/-- The `clear` command (lines 368-373): clear the deque only. -/
def clear (s : RoomState) : RoomState :=
  { s with queue := [] }

/-- The `loop` command (lines 349-354): flip the flag. -/
def toggle_loop (s : RoomState) : RoomState :=
  { s with loop := !s.loop }

/-- Replies of the `volume` command. -/
inductive VolumeReply where
  | rangeError
  | volumeSet
  | nothingPlaying
  deriving DecidableEq, Repr

/-- The `volume` command (lines 356-366): reject `pct` outside `0..200`;
with an attached source, set the *live* source volume to `pct / 100`;
otherwise report that nothing is playing.  The stored `MusicQueue.volume`
is never written. -/
def volume (s : RoomState) (pct : Int) : RoomState × VolumeReply :=
  if 0 ≤ pct ∧ pct ≤ 200 then
    if s.playing then ({ s with liveVolume := pct.toNat }, .volumeSet)
    else (s, .nothingPlaying)
  else (s, .rangeError)

/-- The `disconnect` command (lines 385-393): set `processing = False`,
clear the deque, and leave the voice channel (so nothing is streaming).
`queue.current` is left as-is, as in the source. -/
def disconnect (s : RoomState) : RoomState :=
  { s with processing := false, queue := [], playing := false }

/-- The operations a room can undergo: the user commands plus the player's
completion notification (`complete true` carries a playback error). -/
inductive Op where
  | enqueue : Op
  | complete : Bool → Op
  | skip : Op
  | stop : Op
  | clear : Op
  | toggleLoop : Op
  | setVolume : Int → Op
  | disconnect : Op
  deriving DecidableEq, Repr

/-- One serialized operation on a room. -/
def step (s : RoomState) : Op → RoomState
  | .enqueue => enqueueTrack s
  | .complete e => onCompletion s e
  | .skip => skip s
  | .stop => stop s
  | .clear => clear s
  | .toggleLoop => toggle_loop s
  | .setVolume p => (volume s p).1
  | .disconnect => disconnect s

/-- Run a sequence of operations. -/
def run (s : RoomState) (ops : List Op) : RoomState :=
  ops.foldl step s

/-- All handles a room currently holds: the current one, then the pending
deque. -/
def handles (s : RoomState) : List Nat :=
  s.current.toList ++ s.queue

/-- Room well-formedness: all held handles are pairwise distinct, and all of
them were issued by the freshness counter. -/
def WF (s : RoomState) : Prop :=
  (handles s).Nodup ∧ ∀ h ∈ handles s, h < s.nextId

theorem wf_initState : WF initState := by
  constructor <;> simp [WF, handles, initState]

theorem wf_play_next (s : RoomState) (hs : WF s) : WF (play_next s) := by
  obtain ⟨q, c, lp, v, pr, pl, lv, ni, er⟩ := s
  obtain ⟨hnd, hbd⟩ := hs
  simp only [WF, handles] at hnd hbd ⊢
  cases c with
  | none =>
    cases q with
    | nil => exact ⟨hnd, hbd⟩
    | cons a t =>
      simp_all [play_next, play_song]
  | some c0 =>
    cases lp with
    | false =>
      cases q with
      | nil => simp_all [play_next]
      | cons a t => simp_all [play_next, play_song, List.nodup_cons]
    | true =>
      simp_all [play_next, play_song, List.nodup_cons]

theorem wf_onCompletion (s : RoomState) (e : Bool) (hs : WF s) :
    WF (onCompletion s e) := by
  unfold onCompletion
  cases e with
  | true => simpa [WF, handles] using hs
  | false => exact wf_play_next _ (by simpa [WF, handles] using hs)

theorem nodup_concat_fresh (l : List Nat) (n : Nat) (hl : l.Nodup)
    (hb : ∀ x ∈ l, x < n) : (l ++ [n]).Nodup := by
  rw [List.nodup_append]
  refine ⟨hl, List.nodup_singleton n, ?_⟩
  intro x hx hmem
  rw [List.mem_singleton] at hmem
  subst hmem
  exact absurd (hb x hx) (Nat.lt_irrefl x)

theorem bound_concat (l : List Nat) (n : Nat) (hb : ∀ x ∈ l, x < n) :
    ∀ x ∈ l ++ [n], x < n + 1 := by
  intro x hx
  rcases List.mem_append.1 hx with h | h
  · have := hb x h
    omega
  · rw [List.mem_singleton] at h
    omega

theorem wf_enqueueTrack (s : RoomState) (hs : WF s) : WF (enqueueTrack s) := by
  obtain ⟨hnd, hbd⟩ := hs
  have hnd' : (s.current.toList ++ s.queue).Nodup := hnd
  have hbd' : ∀ x ∈ s.current.toList ++ s.queue, x < s.nextId := hbd
  unfold enqueueTrack
  split
  · constructor
    · show (s.current.toList ++ (s.queue ++ [s.nextId])).Nodup
      rw [← List.append_assoc]
      exact nodup_concat_fresh _ _ hnd' hbd'
    · show ∀ x ∈ s.current.toList ++ (s.queue ++ [s.nextId]), x < s.nextId + 1
      rw [← List.append_assoc]
      exact bound_concat _ _ hbd'
  · constructor
    · show (s.nextId :: s.queue).Nodup
      rw [List.nodup_cons]
      constructor
      · intro hx
        have := hbd' s.nextId (List.mem_append_right _ hx)
        omega
      · exact hnd'.of_append_right
    · show ∀ x ∈ s.nextId :: s.queue, x < s.nextId + 1
      intro x hx
      rcases List.mem_cons.1 hx with rfl | hmem
      · omega
      · have := hbd' x (List.mem_append_right _ hmem)
        omega

theorem wf_congr (s t : RoomState) (hc : t.current = s.current)
    (hq : t.queue = s.queue) (hn : t.nextId = s.nextId) (hs : WF s) : WF t := by
  obtain ⟨hnd, hbd⟩ := hs
  constructor
  · show (t.current.toList ++ t.queue).Nodup
    rw [hc, hq]
    exact hnd
  · show ∀ x ∈ t.current.toList ++ t.queue, x < t.nextId
    rw [hc, hq, hn]
    exact hbd

theorem wf_empty_queue (s t : RoomState) (hc : t.current = s.current)
    (hq : t.queue = []) (hn : t.nextId = s.nextId) (hs : WF s) : WF t := by
  obtain ⟨hnd, hbd⟩ := hs
  have hnd' : (s.current.toList ++ s.queue).Nodup := hnd
  have hbd' : ∀ x ∈ s.current.toList ++ s.queue, x < s.nextId := hbd
  constructor
  · show (t.current.toList ++ t.queue).Nodup
    rw [hc, hq, List.append_nil]
    exact hnd'.of_append_left
  · show ∀ x ∈ t.current.toList ++ t.queue, x < t.nextId
    rw [hc, hq, hn, List.append_nil]
    intro x hx
    exact hbd' _ (List.mem_append_left _ hx)

theorem wf_drop_current (s t : RoomState) (hc : t.current = none)
    (hq : t.queue = s.queue) (hn : t.nextId = s.nextId) (hs : WF s) : WF t := by
  obtain ⟨hnd, hbd⟩ := hs
  have hnd' : (s.current.toList ++ s.queue).Nodup := hnd
  have hbd' : ∀ x ∈ s.current.toList ++ s.queue, x < s.nextId := hbd
  constructor
  · show (t.current.toList ++ t.queue).Nodup
    rw [hc, hq]
    exact hnd'.of_append_right
  · show ∀ x ∈ t.current.toList ++ t.queue, x < t.nextId
    rw [hc, hq, hn]
    intro x hx
    exact hbd' _ (List.mem_append_right _ hx)

theorem wf_skip (s : RoomState) (hs : WF s) : WF (skip s) := by
  unfold skip
  split
  · split
    · exact wf_drop_current (onCompletion s false) _ rfl rfl rfl
        (wf_onCompletion s false hs)
    · exact wf_play_next _ (wf_onCompletion s false hs)
  · exact hs

theorem wf_stop (s : RoomState) (hs : WF s) : WF (stop s) := by
  unfold stop
  split
  · exact wf_onCompletion _ false (wf_empty_queue s _ rfl rfl rfl hs)
  · exact wf_empty_queue s _ rfl rfl rfl hs

theorem wf_volume (s : RoomState) (p : Int) (hs : WF s) : WF (volume s p).1 := by
  unfold volume
  split
  · split
    · exact wf_congr s _ rfl rfl rfl hs
    · exact hs
  · exact hs

theorem wf_step (s : RoomState) (op : Op) (hs : WF s) : WF (step s op) := by
  cases op with
  | enqueue => exact wf_enqueueTrack s hs
  | complete e => exact wf_onCompletion s e hs
  | skip => exact wf_skip s hs
  | stop => exact wf_stop s hs
  | clear => exact wf_empty_queue s _ rfl rfl rfl hs
  | toggleLoop => exact wf_congr s _ rfl rfl rfl hs
  | setVolume p => exact wf_volume s p hs
  | disconnect => exact wf_empty_queue s _ rfl rfl rfl hs

theorem wf_run (s : RoomState) (ops : List Op) (hs : WF s) : WF (run s ops) := by
  induction ops generalizing s with
  | nil => exact hs
  | cons op rest ih => exact ih (step s op) (wf_step s op hs)

/-- C1: after every sequence of operations (enqueue, completion-handling,
skip, stop, clear, loop toggling, volume setting, disconnect) starting from a
fresh room, `current` is either none or exactly one concrete handle, and that
handle never occurs in the pending deque. -/
theorem current_not_in_pending (ops : List Op) :
    (run initState ops).current = none ∨
    ∃ h, (run initState ops).current = some h ∧
      h ∉ (run initState ops).queue := by
  obtain ⟨hnd, _⟩ := wf_run initState ops wf_initState
  cases hc : (run initState ops).current with
  | none => exact Or.inl rfl
  | some h =>
    refine Or.inr ⟨h, rfl, ?_⟩
    have hnd' : ((run initState ops).current.toList ++
        (run initState ops).queue).Nodup := hnd
    rw [hc] at hnd'
    exact (List.nodup_cons.1 hnd').1

/-- A room streaming track `0` with track `1` pending and loop mode on. -/
def playingLoopState : RoomState :=
  { queue := [1], current := some 0, loop := true, volume := 100,
    processing := true, playing := true, liveVolume := 100,
    nextId := 2, errors := 0 }

/-- A room streaming track `0` with track `1` pending, loop mode off. -/
def playingState : RoomState :=
  { playingLoopState with loop := false }

/-- C2 (refutation at a concrete input): with loop enabled, `skip` on a room
playing track `0` with `pending = [1]` leaves track `0` as `current` — the
completion path run by `voice_client.stop()` re-inserts the skipped handle at
the front of the deque and immediately pops it back, so the skipped track is
replayed rather than dropped, and track `1` never becomes `current`. -/
theorem skip_loop_replays_skipped :
    (skip playingLoopState).current = some 0 ∧
    (skip playingLoopState).queue = [1] ∧
    ¬(skip playingLoopState).current = some 1 := by decide

/-- C3 (refutation at a concrete input): `stop` does clear the deque and the
accepting-work flag, but with loop enabled the forced completion re-inserts
and replays `current` (the room keeps playing), and even with loop disabled
`play_next` never resets `current` to `None`. -/
theorem stop_keeps_current :
    (stop playingLoopState).processing = false ∧
    (stop playingLoopState).current = some 0 ∧
    (stop playingLoopState).playing = true ∧
    (stop playingState).queue = [] ∧
    (stop playingState).playing = false ∧
    ¬(stop playingState).current = none := by decide

/-- C4 (counterexample): with loop on, `current = 0` and `pending = [1]`, a
normal completion puts the finished track straight back as `current`; the
pending track `1` is not selected, so the finished track does *not* recur
after the other pending tracks. -/
theorem loop_completion_not_after_others :
    (onCompletion playingLoopState false).current = some 0 ∧
    (onCompletion playingLoopState false).queue = [1] ∧
    ¬(onCompletion playingLoopState false).current = some 1 := by decide

/-- C4 (amended): with `loopEnabled = true` and `current` set, a normal end
pushes the finished handle onto the front of `pending` and the next-track
selection immediately pops it back: the finished track replays at once as
`current`, before any other pending track, and `pending` is unchanged. -/
theorem loop_front_reinsert_replays (s : RoomState) (c : Nat)
    (hl : s.loop = true) (hc : s.current = some c) :
    (onCompletion s false).current = some c ∧
    (onCompletion s false).queue = s.queue ∧
    (onCompletion s false).playing = true := by
  simp [onCompletion, play_next, play_song, hc, hl]

theorem loop_front_reinsert_replays_witness :
    (onCompletion playingLoopState false).current = some 0 ∧
    (onCompletion playingLoopState false).queue = playingLoopState.queue ∧
    (onCompletion playingLoopState false).playing = true :=
  loop_front_reinsert_replays playingLoopState 0 rfl rfl

/-- C5 (counterexample): a completion carrying an error, on a room playing
track `0` with `pending = [1]`, does not advance the queue — the state is
unchanged except that the player is idle and a failure was reported; track
`1` does not become `current`. -/
theorem error_completion_does_not_advance :
    onCompletion playingState true =
      { playingState with playing := false, errors := 1 } ∧
    ¬(onCompletion playingState true).current = some 1 := by decide

/-- C5 (amended): a Player completion notification that carries an error is
*not* treated as a completion event: the failure is reported, but the queue
does not advance — `current` and `pending` are untouched and no next track
starts; only the playing flag drops and the error count rises. -/
theorem error_completion_only_reports (s : RoomState) :
    onCompletion s true = { s with playing := false, errors := s.errors + 1 } :=
  rfl

/-- C8 (counterexample): `volume 150` on a playing room leaves the stored
`volumePercent` at its default `100`, and the next track starts at the
default live volume `100`, not at `150`. -/
theorem volume_not_stored :
    (volume playingState 150).1.volume = 100 ∧
    ¬(volume playingState 150).1.volume = 150 ∧
    (onCompletion (volume playingState 150).1 false).liveVolume = 100 ∧
    ¬(onCompletion (volume playingState 150).1 false).liveVolume = 150 := by
  decide

/-- C8 (amended): an out-of-range `pct` is rejected with no state change; an
in-range `pct` while playing is applied live to the current source only; an
in-range `pct` while not playing changes nothing and reports that nothing is
playing; in every case the stored `volumePercent` is left untouched, so
subsequent tracks start at the default volume. -/
theorem volume_amended (s : RoomState) (pct : Int) :
    (volume s pct).1.volume = s.volume ∧
    (¬(0 ≤ pct ∧ pct ≤ 200) → volume s pct = (s, .rangeError)) ∧
    ((0 ≤ pct ∧ pct ≤ 200) → s.playing = true →
      volume s pct = ({ s with liveVolume := pct.toNat }, .volumeSet)) ∧
    ((0 ≤ pct ∧ pct ≤ 200) → s.playing = false →
      volume s pct = (s, .nothingPlaying)) := by
  refine ⟨?_, fun h => ?_, fun h hp => ?_, fun h hp => ?_⟩
  · unfold volume
    split
    · split <;> rfl
    · rfl
  · unfold volume
    rw [if_neg h]
  · unfold volume
    rw [if_pos h, if_pos hp]
  · unfold volume
    rw [if_pos h, if_neg (by simp [hp])]

theorem volume_amended_witness :
    volume playingState 150 = ({ playingState with liveVolume := 150 }, .volumeSet) :=
  (volume_amended playingState 150).2.2.1 ⟨by decide, by decide⟩ rfl

theorem processing_play_song (s : RoomState) (h : Nat) :
    (play_song s h).processing = s.processing := rfl

theorem processing_play_next (s : RoomState) :
    (play_next s).processing = s.processing := by
  obtain ⟨q, c, lp, v, pr, pl, lv, ni, er⟩ := s
  cases c <;> cases lp <;> cases q <;> simp [play_next, play_song]

theorem processing_onCompletion (s : RoomState) (e : Bool) :
    (onCompletion s e).processing = s.processing := by
  cases e <;> simp [onCompletion, processing_play_next]

theorem processing_stop (s : RoomState) : (stop s).processing = false := by
  unfold stop
  split
  · rw [processing_onCompletion]
  · rfl

theorem processing_enqueueTrack (s : RoomState) :
    (enqueueTrack s).processing = true := by
  unfold enqueueTrack
  split <;> rfl

theorem nextId_enqueueTrack (s : RoomState) :
    (enqueueTrack s).nextId = s.nextId + 1 := by
  unfold enqueueTrack
  split <;> rfl

/-- The playlist/album branch of `process_spotify_url` (lines 220-234): for
each sub-item of an `n`-item catalog expansion, first check
`queue.processing` and break with a user-visible message if it is false;
otherwise feed the sub-item through the `play` path, which performs one
resolution call (`YTDLSource.create_source`) and enqueues or starts the
resolved handle.  `i` is the index of the next sub-item; `stopAt` is the
index of the between-sub-item check just before which the user's concurrent
`stop` command is observed (`stopAt ≥` the item count means no stop arrives;
cancellation is cooperative, so a stop issued during a resolution takes
effect at the following check).  Returns the final state, the number of
resolution calls made, and the handles that ever reached
`pending`/`current`, in catalog order. -/
def expandPlaylist (s : RoomState) : Nat → Nat → Nat → RoomState × Nat × List Nat
  | 0, _, _ => (s, 0, [])
  | n + 1, i, stopAt =>
      if (if i = stopAt then stop s else s).processing then
        let s0 := if i = stopAt then stop s else s
        let r := expandPlaylist (enqueueTrack s0) n (i + 1) stopAt
        (r.1, r.2.1 + 1, s0.nextId :: r.2.2)
      else ((if i = stopAt then stop s else s), 0, [])

theorem expandPlaylist_zero (s : RoomState) (i k : Nat) :
    expandPlaylist s 0 i k = (s, 0, []) := rfl

theorem expandPlaylist_go (s : RoomState) (m i k : Nat) (hne : i ≠ k)
    (hp : s.processing = true) :
    expandPlaylist s (m + 1) i k =
      ((expandPlaylist (enqueueTrack s) m (i + 1) k).1,
       (expandPlaylist (enqueueTrack s) m (i + 1) k).2.1 + 1,
       s.nextId :: (expandPlaylist (enqueueTrack s) m (i + 1) k).2.2) := by
  simp [expandPlaylist, hne, hp]

theorem expandPlaylist_stopped (s : RoomState) (m k : Nat) :
    expandPlaylist s (m + 1) k k = (stop s, 0, []) := by
  simp [expandPlaylist, processing_stop]

theorem expandPlaylist_spec (n i k : Nat) (s : RoomState)
    (hp : s.processing = true) (hik : i ≤ k) (hkn : k ≤ i + n) :
    (expandPlaylist s n i k).2.1 = k - i ∧
    (expandPlaylist s n i k).2.2 = List.range' s.nextId (k - i) := by
  induction n generalizing s i with
  | zero =>
    have hik' : k = i := by omega
    subst hik'
    simp [expandPlaylist_zero]
  | succ m ih =>
    by_cases hi : i = k
    · subst hi
      simp [expandPlaylist_stopped]
    · obtain ⟨e1, e2⟩ := ih (i + 1) (enqueueTrack s)
        (processing_enqueueTrack s) (by omega) (by omega)
      rw [expandPlaylist_go s m i k hi hp]
      refine ⟨?_, ?_⟩
      · simp only [e1]
        omega
      · simp only [e2, nextId_enqueueTrack]
        have hki : k - i = (k - (i + 1)) + 1 := by omega
        rw [hki, List.range'_succ]

/-- C6: a `stop` observed at the between-sub-item check after `k` sub-items
of an `n`-item catalog expansion have resolved terminates the expansion
there: exactly the first `k` handles ever reach `pending`/`current`, and
exactly `k` resolution calls are made (none for the remaining sub-items). -/
theorem expansion_stop_early (n k : Nat) (hkn : k ≤ n) :
    (expandPlaylist initState n 0 k).2.1 = k ∧
    (expandPlaylist initState n 0 k).2.2 = List.range k := by
  obtain ⟨e1, e2⟩ := expandPlaylist_spec n 0 k initState rfl (Nat.zero_le k)
    (by omega)
  refine ⟨by simpa using e1, ?_⟩
  rw [e2, List.range_eq_range']
  simp [initState]

theorem expansion_stop_early_witness :
    2 ≤ 5 ∧
    ((expandPlaylist initState 5 0 2).2.1 = 2 ∧
     (expandPlaylist initState 5 0 2).2.2 = List.range 2) :=
  ⟨by decide, expansion_stop_early 5 2 (by decide)⟩

/-- The same expansion loop when sub-item resolutions can fail (the
`try`/`except` of `play`, lines 256-280): a `create_source` failure for one
sub-item is caught inside that `play` call, reported with a single error
message, and the loop continues with the next sub-item.  `subs` records, in
catalog order, whether each sub-item's resolution succeeds.  Returns the
final state, the number of resolution-failure reports, and the handles that
reached `pending`/`current`. -/
def expandWithFailures (s : RoomState) : List Bool → RoomState × Nat × List Nat
  | [] => (s, 0, [])
  | ok :: rest =>
      if s.processing then
        if ok then
          let r := expandWithFailures (enqueueTrack s) rest
          (r.1, r.2.1, s.nextId :: r.2.2)
        else
          let r := expandWithFailures { s with processing := true } rest
          (r.1, r.2.1 + 1, r.2.2)
      else (s, 0, [])

theorem expandWithFailures_spec (subs : List Bool) (s : RoomState)
    (hp : s.processing = true) :
    (expandWithFailures s subs).2.1 = (subs.filter (fun b => !b)).length ∧
    (expandWithFailures s subs).2.2 =
      List.range' s.nextId (subs.filter (fun b => b)).length := by
  induction subs generalizing s with
  | nil => simp [expandWithFailures]
  | cons ok rest ih =>
    cases ok with
    | true =>
      obtain ⟨e1, e2⟩ := ih (enqueueTrack s) (processing_enqueueTrack s)
      refine ⟨?_, ?_⟩
      · simp [expandWithFailures, hp, e1]
      · simp only [expandWithFailures, hp, if_true, e2, nextId_enqueueTrack]
        simp [List.range'_succ]
    | false =>
      obtain ⟨e1, e2⟩ := ih { s with processing := true } rfl
      refine ⟨?_, ?_⟩
      · simp [expandWithFailures, hp, e1]
      · simp only [expandWithFailures, hp, if_true, e2]
        simp

theorem filter_bool_length (l : List Bool) :
    (l.filter (fun b => b)).length + (l.filter (fun b => !b)).length
      = l.length := by
  induction l with
  | nil => rfl
  | cons a t ih => cases a <;> simp [List.filter] <;> omega

/-- C9: in a catalog expansion in which exactly one sub-item's resolution
fails, exactly one resolution-failure report is produced and every other
sub-item still reaches the queue: the handles that reach `pending`/`current`
number one less than the sub-item count. -/
theorem expansion_failure_isolated (subs : List Bool)
    (h1 : (subs.filter (fun b => !b)).length = 1) :
    (expandWithFailures initState subs).2.1 = 1 ∧
    (expandWithFailures initState subs).2.2.length = subs.length - 1 := by
  obtain ⟨e1, e2⟩ := expandWithFailures_spec subs initState rfl
  refine ⟨by rw [e1, h1], ?_⟩
  rw [e2, List.length_range']
  have := filter_bool_length subs
  omega

theorem expansion_failure_isolated_witness :
    (([true, false, true].filter (fun b => !b)).length = 1) ∧
    ((expandWithFailures initState [true, false, true]).2.1 = 1 ∧
     (expandWithFailures initState [true, false, true]).2.2.length
        = [true, false, true].length - 1) :=
  ⟨by decide, expansion_failure_isolated [true, false, true] (by decide)⟩

/-- Observable state of the idle monitor (`on_voice_state_update`,
lines 107-131) for one room; outstanding grace sleeps are tracked
separately as their expiry times. -/
structure IdleSim where
  /-- Whether `member.guild.voice_client` still exists. -/
  connected : Bool
  /-- Successful auto-disconnects performed. -/
  disconnects : Nat
  /-- Expiries that found zero occupancy after the client was already gone
  (the handler then hits a `None` voice client). -/
  failures : Nat
  deriving DecidableEq, Repr

def initIdle : IdleSim :=
  { connected := true, disconnects := 0, failures := 0 }

/-- The grace period: `await asyncio.sleep(5)` (line 119). -/
def graceSecs : Nat := 5

/-- One grace sleep expiring at time `t` (lines 121-131): re-count the
channel's human members; if still zero, disconnect — unless an earlier
expiry already disconnected, in which case the handler's disconnect attempt
fails on the missing client. -/
def fireExpiry (occ : Nat → Nat) (t : Nat) (s : IdleSim) : IdleSim :=
  if occ t = 0 then
    if s.connected then
      { s with connected := false, disconnects := s.disconnects + 1 }
    else
      { s with failures := s.failures + 1 }
  else s

/-- Fire every pending sleep due at or before `t` (expiry times are kept in
increasing order). -/
def drainDue (occ : Nat → Nat) (t : Nat) :
    List Nat → IdleSim → List Nat × IdleSim
  | [], s => ([], s)
  | e :: rest, s =>
      if e ≤ t then drainDue occ t rest (fireExpiry occ e s)
      else (e :: rest, s)

/-- A voice-state event at time `t` (lines 107-119): ignored unless the bot
is connected; if the channel then has zero human members, this handler
starts its *own* grace sleep — there is no guard against a sleep already
pending.  Sleeps due before `t` have fired by then. -/
def voiceEvent (occ : Nat → Nat) (t : Nat) (st : List Nat × IdleSim) :
    List Nat × IdleSim :=
  let d := drainDue occ t st.1 st.2
  if d.2.connected ∧ occ t = 0 then (d.1 ++ [t + graceSecs], d.2)
  else d

/-- Run voice-state events at the given (increasing) times from a connected,
timer-free room. -/
def runIdle (occ : Nat → Nat) (events : List Nat) : List Nat × IdleSim :=
  events.foldl (fun st t => voiceEvent occ t st) ([], initIdle)

/-- Let every remaining sleep expire. -/
def settleIdle (occ : Nat → Nat) (st : List Nat × IdleSim) : IdleSim :=
  st.1.foldl (fun s e => fireExpiry occ e s) st.2

/-- C7 (counterexample): with occupancy identically zero, voice events at
times 0 and 2 leave *two* grace timers outstanding at once — refuting "at
most one grace timer is outstanding per room at any time" — and when both
expire, the first disconnects and the second finds the client already gone
and fails. -/
theorem idle_two_timers_outstanding :
    (runIdle (fun _ => 0) [0, 2]).1.length = 2 ∧
    (settleIdle (fun _ => 0) (runIdle (fun _ => 0) [0, 2])).disconnects = 1 ∧
    (settleIdle (fun _ => 0) (runIdle (fun _ => 0) [0, 2])).failures = 1 := by
  decide

/-- C7 (amended): for a single voice event observed at zero occupancy, an
occupant back before the grace expiry re-check means no disconnect and no
failure, while occupancy still zero at expiry means exactly one disconnect;
but every zero-occupancy voice event starts its own grace timer, so two
events while occupancy stays zero leave two timers outstanding at once. -/
theorem idle_monitor_amended (occ : Nat → Nat) (t : Nat) (h0 : occ t = 0) :
    (occ (t + graceSecs) ≠ 0 →
      (settleIdle occ (runIdle occ [t])).disconnects = 0 ∧
      (settleIdle occ (runIdle occ [t])).failures = 0) ∧
    (occ (t + graceSecs) = 0 →
      (settleIdle occ (runIdle occ [t])).disconnects = 1 ∧
      (settleIdle occ (runIdle occ [t])).failures = 0) ∧
    (runIdle (fun _ => 0) [t, t + 2]).1.length = 2 := by
  refine ⟨fun hne => ?_, fun he => ?_, ?_⟩
  · simp [runIdle, voiceEvent, drainDue, settleIdle, fireExpiry, initIdle,
      h0, hne]
  · simp [runIdle, voiceEvent, drainDue, settleIdle, fireExpiry, initIdle,
      h0, he]
  · have hle : ¬ (t + graceSecs ≤ t + 2) := by simp [graceSecs]
    simp [runIdle, voiceEvent, drainDue, initIdle, hle]

theorem idle_monitor_amended_witness :
    (fun _ => (0 : Nat)) 0 = 0 ∧
    ((settleIdle (fun _ => 0) (runIdle (fun _ => 0) [0])).disconnects = 1 ∧
     (settleIdle (fun _ => 0) (runIdle (fun _ => 0) [0])).failures = 0) :=
  ⟨rfl, (idle_monitor_amended (fun _ => 0) 0 rfl).2.1 rfl⟩

theorem pad2_length_of_lt : ∀ n < 100, (pad2 n).length = 2 := by decide

/-- C10: the duration formatter is a total function; a missing duration
prints `"Unknown"`; `s ≥ 3600` seconds print as `H:MM:SS` with the minute
and second fields zero-padded to two digits; `s < 3600` seconds print as
`M:SS` with the second field zero-padded to two digits. -/
theorem format_duration_spec (s : Nat) :
    format_duration none = "Unknown" ∧
    (3600 ≤ s →
      format_duration (some s) =
        Nat.repr (s / 3600) ++ ":" ++ pad2 (s % 3600 / 60) ++ ":"
          ++ pad2 (s % 60) ∧
      (pad2 (s % 3600 / 60)).length = 2 ∧ (pad2 (s % 60)).length = 2) ∧
    (s < 3600 →
      format_duration (some s) = Nat.repr (s / 60) ++ ":" ++ pad2 (s % 60) ∧
      (pad2 (s % 60)).length = 2) := by
  refine ⟨rfl, fun h => ?_, fun h => ?_⟩
  · have hh : s / 3600 > 0 := Nat.div_pos h (by omega)
    refine ⟨?_, pad2_length_of_lt _ (by omega), pad2_length_of_lt _ (by omega)⟩
    show (if s / 3600 > 0 then
        Nat.repr (s / 3600) ++ ":" ++ pad2 (s % 3600 / 60) ++ ":"
          ++ pad2 (s % 3600 % 60)
      else Nat.repr (s % 3600 / 60) ++ ":" ++ pad2 (s % 3600 % 60)) = _
    rw [if_pos hh, Nat.mod_mod_of_dvd s (by norm_num)]
  · have hh : ¬ (s / 3600 > 0) := by
      rw [Nat.div_eq_of_lt h]
      omega
    refine ⟨?_, pad2_length_of_lt _ (by omega)⟩
    show (if s / 3600 > 0 then
        Nat.repr (s / 3600) ++ ":" ++ pad2 (s % 3600 / 60) ++ ":"
          ++ pad2 (s % 3600 % 60)
      else Nat.repr (s % 3600 / 60) ++ ":" ++ pad2 (s % 3600 % 60)) = _
    rw [if_neg hh, Nat.mod_eq_of_lt h]

theorem format_duration_spec_witness :
    3600 ≤ 3661 ∧
    (format_duration (some 3661) =
        Nat.repr (3661 / 3600) ++ ":" ++ pad2 (3661 % 3600 / 60) ++ ":"
          ++ pad2 (3661 % 60) ∧
     (pad2 (3661 % 3600 / 60)).length = 2 ∧ (pad2 (3661 % 60)).length = 2) :=
  ⟨by decide, (format_duration_spec 3661).2.1 (by decide)⟩

end TuneBot
